import Mathlib

/-!
Shallow embedding of the kinematic bicycle-model car simulator (`main.py`)
over the real numbers, together with theorems settling the specification
claims about its state-transition function `update_car`.
-/

namespace CarSim

noncomputable section

/-- Configuration constant: maximum throttle-induced acceleration, m/s^2. -/
def MAX_ACCEL : ℝ := 6

/-- Configuration constant: maximum brake-induced deceleration magnitude, m/s^2. -/
def MAX_DECEL : ℝ := 10

/-- Configuration constant: speed ceiling, m/s. -/
def MAX_SPEED : ℝ := 60

/-- Configuration constant: linear drag coefficient, 1/s. -/
def DRAG_COEF : ℝ := 0

/-- Configuration constant: fixed simulation time increment, s (`1e-3`). -/
def INTEGRATION_STEP : ℝ := 1 / 1000

/-- Configuration constant: wheelbase-equivalent car length, m. -/
def CAR_LEN : ℝ := 2

/-- Configuration constant: distance from rear axle to center of mass, m. -/
def LR : ℝ := 1

/-- The vehicle state record, mirroring the `CarState` dataclass field for field. -/
structure CarState where
  timestamp : ℝ
  gas_position : ℝ
  steer_angle : ℝ
  heading_angle : ℝ
  x_pos : ℝ
  y_pos : ℝ
  v_x : ℝ
  v_y : ℝ
  speed : ℝ
  accel_x : ℝ
  accel_y : ℝ
  accel_norm : ℝ

/-- Embedding of `gas_pos_to_acc`: `MAX_ACCEL * min(gas_pos, 1)` for
non-negative input, `MAX_DECEL * max(gas_pos, -1)` otherwise. -/
def gas_pos_to_acc (gas_pos : ℝ) : ℝ :=
  if 0 ≤ gas_pos then MAX_ACCEL * min gas_pos 1 else MAX_DECEL * max gas_pos (-1)

/-- Embedding of `update_speed`: one Euler step of the longitudinal dynamics,
clamped to `[0, MAX_SPEED]`. -/
def update_speed (speed_old gas_pos : ℝ) : ℝ :=
  min (max 0 (speed_old + (gas_pos_to_acc gas_pos - DRAG_COEF * speed_old) * INTEGRATION_STEP))
    MAX_SPEED

/-- Embedding of `beta`: the kinematic-bicycle side-slip angle. -/
def beta (steering_angle : ℝ) : ℝ :=
  Real.arctan (LR * Real.tan steering_angle / CAR_LEN)

/-- Embedding of `v_x`: world-frame x velocity component. -/
def v_x (speed heading steering_angle : ℝ) : ℝ :=
  speed * Real.cos (heading + beta steering_angle)

/-- Embedding of `v_y`: world-frame y velocity component. -/
def v_y (speed heading steering_angle : ℝ) : ℝ :=
  speed * Real.sin (heading + beta steering_angle)

/-- Embedding of `angular_velocity`: the yaw rate. -/
def angular_velocity (speed steering_angle : ℝ) : ℝ :=
  speed * (Real.tan steering_angle * Real.cos (beta steering_angle)) / CAR_LEN

/-- Embedding of `update_car`: the per-step state transition. -/
def update_car (car : CarState) (gas_pos steer_angle : ℝ) : CarState :=
  let speed := update_speed car.speed gas_pos
  let heading_angle := car.heading_angle + angular_velocity speed steer_angle * INTEGRATION_STEP
  let vx := v_x speed heading_angle steer_angle
  let vy := v_y speed heading_angle steer_angle
  let x_pos := car.x_pos + vx * INTEGRATION_STEP
  let y_pos := car.y_pos + vy * INTEGRATION_STEP
  let timestamp := car.timestamp + INTEGRATION_STEP
  let ax := (vx - car.v_x) / INTEGRATION_STEP
  let ay := (vy - car.v_y) / INTEGRATION_STEP
  { timestamp := timestamp
    gas_position := gas_pos
    steer_angle := steer_angle
    heading_angle := heading_angle
    x_pos := x_pos
    y_pos := y_pos
    v_x := vx
    v_y := vy
    speed := speed
    accel_x := ax
    accel_y := ay
    accel_norm := Real.sqrt (ax ^ 2 + ay ^ 2) }

/-- The canonical initial state: stationary car at the origin (`CarState(0,...,0)`). -/
def initState : CarState :=
  { timestamp := 0, gas_position := 0, steer_angle := 0, heading_angle := 0
    x_pos := 0, y_pos := 0, v_x := 0, v_y := 0, speed := 0
    accel_x := 0, accel_y := 0, accel_norm := 0 }

/-- Run the simulation from the canonical initial state over a finite list of
`(gas, steer)` input pairs. -/
def run (inputs : List (ℝ × ℝ)) : CarState :=
  inputs.foldl (fun st p => update_car st p.1 p.2) initState

/-- Iterate the transition from a given state with fixed `(gas, steer)` inputs. -/
def runConst (st : CarState) (g s : ℝ) : ℕ → CarState
  | 0 => st
  | n + 1 => update_car (runConst st g s n) g s

/-- Saturating clamp of `x` into `[lo, hi]`, as the specification words it. -/
def clamp (x lo hi : ℝ) : ℝ :=
  min (max x lo) hi

/-- The reference stress trajectory: from rest, full throttle with steering π/4. -/
def traj (n : ℕ) : CarState :=
  runConst initState 1 (Real.pi / 4) n

/-- The constant value of `accel_norm` along the stress trajectory once the
speed has saturated at `MAX_SPEED`: the finite difference of a velocity of
constant magnitude `MAX_SPEED` rotating by a fixed heading increment per step. -/
def satAccelNorm : ℝ :=
  Real.sqrt (MAX_SPEED ^ 2
    * (2 - 2 * Real.cos (angular_velocity MAX_SPEED (Real.pi / 4) * INTEGRATION_STEP))
    / INTEGRATION_STEP ^ 2)

end

/-! ## Projection equations for the transition -/

/-- The speed field of a stepped state. -/
theorem update_car_speed (car : CarState) (g s : ℝ) :
    (update_car car g s).speed = update_speed car.speed g := rfl

/-- The heading field of a stepped state. -/
theorem update_car_heading (car : CarState) (g s : ℝ) :
    (update_car car g s).heading_angle
      = car.heading_angle + angular_velocity (update_speed car.speed g) s * INTEGRATION_STEP :=
  rfl

/-- The x velocity field of a stepped state. -/
theorem update_car_vx (car : CarState) (g s : ℝ) :
    (update_car car g s).v_x
      = v_x (update_speed car.speed g) (update_car car g s).heading_angle s := rfl

/-- The y velocity field of a stepped state. -/
theorem update_car_vy (car : CarState) (g s : ℝ) :
    (update_car car g s).v_y
      = v_y (update_speed car.speed g) (update_car car g s).heading_angle s := rfl

/-- The x position field of a stepped state. -/
theorem update_car_x_pos (car : CarState) (g s : ℝ) :
    (update_car car g s).x_pos = car.x_pos + (update_car car g s).v_x * INTEGRATION_STEP := rfl

/-- The y position field of a stepped state. -/
theorem update_car_y_pos (car : CarState) (g s : ℝ) :
    (update_car car g s).y_pos = car.y_pos + (update_car car g s).v_y * INTEGRATION_STEP := rfl

/-- The acceleration fields of a stepped state. -/
theorem update_car_accel (car : CarState) (g s : ℝ) :
    (update_car car g s).accel_x = ((update_car car g s).v_x - car.v_x) / INTEGRATION_STEP
    ∧ (update_car car g s).accel_y = ((update_car car g s).v_y - car.v_y) / INTEGRATION_STEP :=
  ⟨rfl, rfl⟩

/-- Unfolding of one `runConst` iteration. -/
theorem runConst_succ (st : CarState) (g s : ℝ) (n : ℕ) :
    runConst st g s (n + 1) = update_car (runConst st g s n) g s := rfl

/-! ## Basic lemmas about the transition -/

/-- The speed produced by one `update_speed` call is always within `[0, MAX_SPEED]`. -/
theorem update_speed_bounds (s g : ℝ) :
    0 ≤ update_speed s g ∧ update_speed s g ≤ MAX_SPEED := by
  unfold update_speed MAX_SPEED
  constructor
  · exact le_min (le_max_left 0 _) (by norm_num)
  · exact min_le_right _ _

/-- Claim C1: `update_car` computes its fields in the spec's semi-implicit order:
the new heading uses the new speed and the old heading; the velocity components
use the new speed and new heading; the new position is the old position plus the
new velocity times `INTEGRATION_STEP`; and the accelerations are the backward
finite differences of the velocity components over the step. -/
theorem step_field_order (car : CarState) (g s : ℝ) :
    (update_car car g s).heading_angle
        = car.heading_angle + angular_velocity (update_speed car.speed g) s * INTEGRATION_STEP
    ∧ (update_car car g s).v_x
        = v_x (update_speed car.speed g) (update_car car g s).heading_angle s
    ∧ (update_car car g s).v_y
        = v_y (update_speed car.speed g) (update_car car g s).heading_angle s
    ∧ (update_car car g s).x_pos = car.x_pos + (update_car car g s).v_x * INTEGRATION_STEP
    ∧ (update_car car g s).y_pos = car.y_pos + (update_car car g s).v_y * INTEGRATION_STEP
    ∧ (update_car car g s).accel_x = ((update_car car g s).v_x - car.v_x) / INTEGRATION_STEP
    ∧ (update_car car g s).accel_y = ((update_car car g s).v_y - car.v_y) / INTEGRATION_STEP :=
  ⟨rfl, rfl, rfl, rfl, rfl, rfl, rfl⟩

/-- Claim C6: the produced `accel_norm` field is exactly the square root of the
sum of squares of the produced acceleration components, hence non-negative. -/
theorem accel_norm_consistent (car : CarState) (g s : ℝ) :
    (update_car car g s).accel_norm
        = Real.sqrt ((update_car car g s).accel_x ^ 2 + (update_car car g s).accel_y ^ 2)
    ∧ 0 ≤ (update_car car g s).accel_norm :=
  ⟨rfl, Real.sqrt_nonneg _⟩

/-- Claim C9: each transition advances the timestamp by exactly
`INTEGRATION_STEP`, hence the timestamp strictly increases. -/
theorem timestamp_step (car : CarState) (g s : ℝ) :
    (update_car car g s).timestamp = car.timestamp + INTEGRATION_STEP
    ∧ car.timestamp < (update_car car g s).timestamp := by
  refine ⟨rfl, ?_⟩
  have h : (update_car car g s).timestamp = car.timestamp + INTEGRATION_STEP := rfl
  rw [h]
  unfold INTEGRATION_STEP
  norm_num

/-- Claim C10: every produced state's world-frame velocity components satisfy
`v_x ^ 2 + v_y ^ 2 = speed ^ 2`. -/
theorem velocity_norm_eq_speed (car : CarState) (g s : ℝ) :
    (update_car car g s).v_x ^ 2 + (update_car car g s).v_y ^ 2
      = (update_car car g s).speed ^ 2 := by
  have hx : (update_car car g s).v_x
      = (update_car car g s).speed
          * Real.cos ((update_car car g s).heading_angle + beta s) := rfl
  have hy : (update_car car g s).v_y
      = (update_car car g s).speed
          * Real.sin ((update_car car g s).heading_angle + beta s) := rfl
  rw [hx, hy]
  have h := Real.sin_sq_add_cos_sq ((update_car car g s).heading_angle + beta s)
  linear_combination ((update_car car g s).speed ^ 2) * h

/-- Speed stays within `[0, MAX_SPEED]` along any fold of `update_car`,
given that it starts there. -/
theorem foldl_speed_bounds (inputs : List (ℝ × ℝ)) :
    ∀ st : CarState, 0 ≤ st.speed → st.speed ≤ MAX_SPEED →
      0 ≤ (inputs.foldl (fun st p => update_car st p.1 p.2) st).speed
      ∧ (inputs.foldl (fun st p => update_car st p.1 p.2) st).speed ≤ MAX_SPEED := by
  induction inputs with
  | nil => exact fun st h1 h2 => ⟨h1, h2⟩
  | cons p rest ih =>
      intro st h1 h2
      simp only [List.foldl_cons]
      exact ih (update_car st p.1 p.2)
        (update_speed_bounds st.speed p.1).1 (update_speed_bounds st.speed p.1).2

/-- Claim C2: every state reachable from the canonical initial state by a
finite sequence of transitions, with arbitrary real gas and steering inputs,
has its speed within `[0, MAX_SPEED]`. -/
theorem reachable_speed_bounded (inputs : List (ℝ × ℝ)) :
    0 ≤ (run inputs).speed ∧ (run inputs).speed ≤ MAX_SPEED := by
  unfold run
  exact foldl_speed_bounds inputs initState (le_refl 0)
    (by unfold initState MAX_SPEED; norm_num)

/-- Claim C3: `gas_pos_to_acc` is `MAX_ACCEL * clamp(g, 0, 1)` on non-negative
input and `MAX_DECEL * clamp(g, -1, 0)` (a non-positive value) on negative
input; out-of-range inputs are saturated, never rejected. -/
theorem gas_to_acc_clamp (g : ℝ) :
    (0 ≤ g → gas_pos_to_acc g = MAX_ACCEL * clamp g 0 1)
    ∧ (g < 0 → gas_pos_to_acc g = MAX_DECEL * clamp g (-1) 0 ∧ gas_pos_to_acc g ≤ 0) := by
  constructor
  · intro h
    unfold gas_pos_to_acc clamp
    rw [if_pos h, max_eq_left h]
  · intro h
    have hn : ¬ (0 ≤ g) := not_le.mpr h
    have hmax : max g (-1) ≤ 0 := max_le h.le (by norm_num)
    unfold gas_pos_to_acc clamp
    rw [if_neg hn, min_eq_left hmax]
    refine ⟨rfl, ?_⟩
    have hD : (0:ℝ) ≤ MAX_DECEL := by unfold MAX_DECEL; norm_num
    exact mul_nonpos_of_nonneg_of_nonpos hD hmax

/-- Witness for C3 at the out-of-range inputs 2 and -2. -/
theorem gas_to_acc_clamp_witness :
    gas_pos_to_acc 2 = MAX_ACCEL * clamp 2 0 1
    ∧ gas_pos_to_acc (-2) = MAX_DECEL * clamp (-2) (-1) 0 :=
  ⟨(gas_to_acc_clamp 2).1 (by norm_num), ((gas_to_acc_clamp (-2)).2 (by norm_num)).1⟩

/-- Claim C7 counterexample: stepping the initial state with gas input 2 yields
a state whose stored `gas_position` is 2, which lies outside `[-1, 1]` — the
transition records the raw input rather than a clamped value. -/
theorem gas_position_not_clamped :
    (update_car initState 2 0).gas_position = 2
    ∧ ¬ ((update_car initState 2 0).gas_position ≤ 1) := by
  have h : (update_car initState 2 0).gas_position = 2 := rfl
  refine ⟨h, ?_⟩
  rw [h]
  norm_num

/-- Claim C7 amended: the transition stores the raw `gas_position` input
unclamped; consequently the stored field lies in `[-1, 1]` exactly when the
input does. -/
theorem gas_position_recorded_raw (car : CarState) (g s : ℝ) :
    (update_car car g s).gas_position = g
    ∧ (-1 ≤ g ∧ g ≤ 1 →
        -1 ≤ (update_car car g s).gas_position ∧ (update_car car g s).gas_position ≤ 1) := by
  have heq : (update_car car g s).gas_position = g := rfl
  refine ⟨heq, fun h => ?_⟩
  rw [heq]
  exact h

/-- Witness for the amended C7 at the in-range input 1/2. -/
theorem gas_position_recorded_raw_witness :
    (update_car initState (1/2) 0).gas_position = 1/2
    ∧ (-1 ≤ (update_car initState (1/2) 0).gas_position
        ∧ (update_car initState (1/2) 0).gas_position ≤ 1) :=
  ⟨(gas_position_recorded_raw initState (1/2) 0).1,
   (gas_position_recorded_raw initState (1/2) 0).2 (by norm_num)⟩

/-- Claim C4: from the canonical initial state, any number of transitions with
zero gas and zero steering leaves speed, position and heading all at zero. -/
theorem zero_input_stationary (n : ℕ) :
    (runConst initState 0 0 n).speed = 0
    ∧ (runConst initState 0 0 n).x_pos = 0
    ∧ (runConst initState 0 0 n).y_pos = 0
    ∧ (runConst initState 0 0 n).heading_angle = 0 := by
  induction n with
  | zero => exact ⟨rfl, rfl, rfl, rfl⟩
  | succ n ih =>
      obtain ⟨hs, hx, hy, hh⟩ := ih
      have hsp : update_speed (runConst initState 0 0 n).speed 0 = 0 := by
        rw [hs]
        unfold update_speed gas_pos_to_acc MAX_ACCEL DRAG_COEF INTEGRATION_STEP MAX_SPEED
        norm_num
      have hhead : (runConst initState 0 0 (n + 1)).heading_angle = 0 := by
        rw [runConst_succ, update_car_heading, hh, hsp]
        unfold angular_velocity
        simp
      have hvx : (runConst initState 0 0 (n + 1)).v_x = 0 := by
        rw [runConst_succ, update_car_vx, hsp]
        unfold v_x
        simp
      have hvy : (runConst initState 0 0 (n + 1)).v_y = 0 := by
        rw [runConst_succ, update_car_vy, hsp]
        unfold v_y
        simp
      refine ⟨?_, ?_, ?_, hhead⟩
      · rw [runConst_succ, update_car_speed, hsp]
      · rw [runConst_succ, update_car_x_pos, ← runConst_succ, hvx, hx]
        simp
      · rw [runConst_succ, update_car_y_pos, ← runConst_succ, hvy, hy]
        simp

/-- Clamping to a ceiling commutes with adding a non-negative increment and
re-clamping. -/
theorem min_clamp_add (a c M : ℝ) (hc : 0 ≤ c) :
    min (min a M + c) M = min (a + c) M := by
  rcases le_total a M with h | h
  · rw [min_eq_left h]
  · rw [min_eq_right h, min_eq_right (by linarith), min_eq_right (by linarith)]

/-- Full throttle saturates `gas_pos_to_acc` at `MAX_ACCEL`. -/
theorem gas_to_acc_one : gas_pos_to_acc 1 = MAX_ACCEL := by
  unfold gas_pos_to_acc
  rw [if_pos (by norm_num : (0:ℝ) ≤ 1), min_self, mul_one]

/-- Closed form of the speed along a full-throttle run from rest: after `n`
steps the speed is `min (n * MAX_ACCEL * INTEGRATION_STEP) MAX_SPEED`. -/
theorem runConst_speed_formula (st : CarState) (s : ℝ) (hs : st.speed = 0) :
    ∀ n : ℕ, (runConst st 1 s n).speed
      = min ((n : ℝ) * (MAX_ACCEL * INTEGRATION_STEP)) MAX_SPEED := by
  intro n
  induction n with
  | zero =>
      show st.speed = _
      rw [hs, Nat.cast_zero, zero_mul,
        min_eq_left (by unfold MAX_SPEED; norm_num)]
  | succ n ih =>
      rw [runConst_succ, update_car_speed]
      unfold update_speed
      rw [gas_to_acc_one, ih]
      have hd : (MAX_ACCEL
            - DRAG_COEF * min ((n : ℝ) * (MAX_ACCEL * INTEGRATION_STEP)) MAX_SPEED)
          * INTEGRATION_STEP = MAX_ACCEL * INTEGRATION_STEP := by
        unfold DRAG_COEF
        ring
      rw [hd]
      have hc : (0:ℝ) ≤ MAX_ACCEL * INTEGRATION_STEP := by
        unfold MAX_ACCEL INTEGRATION_STEP
        norm_num
      have hmin0 : (0:ℝ) ≤ min ((n : ℝ) * (MAX_ACCEL * INTEGRATION_STEP)) MAX_SPEED :=
        le_min (mul_nonneg (Nat.cast_nonneg n) hc) (by unfold MAX_SPEED; norm_num)
      rw [max_eq_right (add_nonneg hmin0 hc), min_clamp_add _ _ _ hc]
      congr 1
      push_cast
      ring

/-- Claim C5: from rest under full throttle (any fixed steering), speed never
exceeds `MAX_SPEED`, and after any `N` steps with
`N * MAX_ACCEL * INTEGRATION_STEP ≥ MAX_SPEED` the speed equals `MAX_SPEED`
exactly. -/
theorem full_throttle_saturation (st : CarState) (s : ℝ) (hs : st.speed = 0) (N : ℕ)
    (hN : MAX_SPEED ≤ (N : ℝ) * MAX_ACCEL * INTEGRATION_STEP) :
    (runConst st 1 s N).speed = MAX_SPEED
    ∧ ∀ n : ℕ, (runConst st 1 s n).speed ≤ MAX_SPEED := by
  constructor
  · rw [runConst_speed_formula st s hs N]
    exact min_eq_right (by rw [← mul_assoc]; exact hN)
  · intro n
    rw [runConst_speed_formula st s hs n]
    exact min_le_right _ _

/-- Witness for C5: from the initial state with straight steering,
10000 full-throttle steps reach exactly `MAX_SPEED`. -/
theorem full_throttle_saturation_witness :
    (runConst initState 1 0 10000).speed = MAX_SPEED
    ∧ ∀ n : ℕ, (runConst initState 1 0 n).speed ≤ MAX_SPEED :=
  full_throttle_saturation initState 0 rfl 10000
    (by unfold MAX_SPEED MAX_ACCEL INTEGRATION_STEP; norm_num)

/-! ## The full-throttle quarter-turn stress trajectory -/

/-- At the ceiling, full throttle leaves the speed unchanged. -/
theorem update_speed_max : update_speed MAX_SPEED 1 = MAX_SPEED := by
  unfold update_speed
  rw [gas_to_acc_one]
  unfold MAX_ACCEL MAX_SPEED DRAG_COEF INTEGRATION_STEP
  rw [max_eq_right (by norm_num), min_eq_right (by norm_num)]

/-- Squared chord length between two points of the unit circle. -/
theorem chord_sq (A B : ℝ) :
    (Real.cos A - Real.cos B) ^ 2 + (Real.sin A - Real.sin B) ^ 2
      = 2 - 2 * Real.cos (A - B) := by
  rw [Real.cos_sub]
  linear_combination Real.sin_sq_add_cos_sq A + Real.sin_sq_add_cos_sq B

/-- Yaw rate at the speed ceiling with steering π/4. -/
theorem angular_velocity_sat :
    angular_velocity MAX_SPEED (Real.pi / 4) = 30 * Real.cos (beta (Real.pi / 4)) := by
  unfold angular_velocity MAX_SPEED CAR_LEN
  rw [Real.tan_pi_div_four]
  ring

/-- The side-slip angle at steering π/4. -/
theorem beta_pi_div_four : beta (Real.pi / 4) = Real.arctan (1 / 2) := by
  unfold beta LR CAR_LEN
  rw [Real.tan_pi_div_four]
  norm_num

/-- The per-step heading increment at the speed ceiling is strictly between
0 and 2π. -/
theorem delta_bounds :
    0 < angular_velocity MAX_SPEED (Real.pi / 4) * INTEGRATION_STEP
    ∧ angular_velocity MAX_SPEED (Real.pi / 4) * INTEGRATION_STEP < 2 * Real.pi := by
  rw [angular_velocity_sat, beta_pi_div_four]
  unfold INTEGRATION_STEP
  have h1 : 0 < Real.cos (Real.arctan (1 / 2)) := Real.cos_arctan_pos (1 / 2)
  have h2 : Real.cos (Real.arctan (1 / 2)) ≤ 1 := Real.cos_le_one _
  have hπ : 3 < Real.pi := Real.pi_gt_three
  constructor
  · exact mul_pos (mul_pos (by norm_num) h1) (by norm_num)
  · nlinarith

/-- The saturated acceleration norm is strictly positive. -/
theorem satAccelNorm_pos : 0 < satAccelNorm := by
  obtain ⟨hpos, hlt⟩ := delta_bounds
  have hπ := Real.pi_pos
  have hcos : Real.cos (angular_velocity MAX_SPEED (Real.pi / 4) * INTEGRATION_STEP) < 1 := by
    rcases lt_or_eq_of_le
        (Real.cos_le_one (angular_velocity MAX_SPEED (Real.pi / 4) * INTEGRATION_STEP)) with
      h | h
    · exact h
    · exfalso
      have h0 := (Real.cos_eq_one_iff_of_lt_of_lt (by linarith) hlt).mp h
      rw [h0] at hpos
      exact lt_irrefl 0 hpos
  unfold satAccelNorm
  apply Real.sqrt_pos.mpr
  apply div_pos
  · apply mul_pos
    · unfold MAX_SPEED
      norm_num
    · linarith
  · unfold INTEGRATION_STEP
    norm_num

/-- Stepping any saturated state of the stress scenario (whose velocity fields
are consistent with its speed and heading) produces the constant saturated
acceleration norm. -/
theorem accel_norm_const_step (c0 : CarState)
    (h0x : c0.v_x = c0.speed * Real.cos (c0.heading_angle + beta (Real.pi / 4)))
    (h0y : c0.v_y = c0.speed * Real.sin (c0.heading_angle + beta (Real.pi / 4)))
    (h0s : c0.speed = MAX_SPEED) :
    (update_car c0 1 (Real.pi / 4)).accel_norm = satAccelNorm := by
  have hs1 : (update_car c0 1 (Real.pi / 4)).speed = MAX_SPEED := by
    rw [update_car_speed, h0s]
    exact update_speed_max
  have hhead : (update_car c0 1 (Real.pi / 4)).heading_angle
      = c0.heading_angle + angular_velocity MAX_SPEED (Real.pi / 4) * INTEGRATION_STEP := by
    rw [update_car_heading, h0s, update_speed_max]
  have hvx1 : (update_car c0 1 (Real.pi / 4)).v_x
      = MAX_SPEED * Real.cos (c0.heading_angle
          + angular_velocity MAX_SPEED (Real.pi / 4) * INTEGRATION_STEP + beta (Real.pi / 4)) := by
    have h : (update_car c0 1 (Real.pi / 4)).v_x
        = (update_car c0 1 (Real.pi / 4)).speed
            * Real.cos ((update_car c0 1 (Real.pi / 4)).heading_angle + beta (Real.pi / 4)) := rfl
    rw [h, hs1, hhead]
  have hvy1 : (update_car c0 1 (Real.pi / 4)).v_y
      = MAX_SPEED * Real.sin (c0.heading_angle
          + angular_velocity MAX_SPEED (Real.pi / 4) * INTEGRATION_STEP + beta (Real.pi / 4)) := by
    have h : (update_car c0 1 (Real.pi / 4)).v_y
        = (update_car c0 1 (Real.pi / 4)).speed
            * Real.sin ((update_car c0 1 (Real.pi / 4)).heading_angle + beta (Real.pi / 4)) := rfl
    rw [h, hs1, hhead]
  have hnorm : (update_car c0 1 (Real.pi / 4)).accel_norm
      = Real.sqrt ((update_car c0 1 (Real.pi / 4)).accel_x ^ 2
          + (update_car c0 1 (Real.pi / 4)).accel_y ^ 2) := rfl
  rw [hnorm, (update_car_accel c0 1 (Real.pi / 4)).1, (update_car_accel c0 1 (Real.pi / 4)).2,
    hvx1, hvy1, h0x, h0y, h0s]
  unfold satAccelNorm
  congr 1
  have hch := chord_sq
    (c0.heading_angle + angular_velocity MAX_SPEED (Real.pi / 4) * INTEGRATION_STEP
      + beta (Real.pi / 4))
    (c0.heading_angle + beta (Real.pi / 4))
  have hAB : (c0.heading_angle + angular_velocity MAX_SPEED (Real.pi / 4) * INTEGRATION_STEP
        + beta (Real.pi / 4)) - (c0.heading_angle + beta (Real.pi / 4))
      = angular_velocity MAX_SPEED (Real.pi / 4) * INTEGRATION_STEP := by
    ring
  rw [hAB] at hch
  linear_combination (MAX_SPEED ^ 2 / INTEGRATION_STEP ^ 2) * hch

/-- Once the stress trajectory reaches the speed ceiling, it stays there. -/
theorem traj_speed_hold (n : ℕ) (hn : (traj n).speed = MAX_SPEED) (m : ℕ) (hm : n ≤ m) :
    (traj m).speed = MAX_SPEED := by
  induction m, hm using Nat.le_induction with
  | base => exact hn
  | succ k hk ih =>
      have h : traj (k + 1) = update_car (traj k) 1 (Real.pi / 4) := rfl
      rw [h, update_car_speed, ih]
      exact update_speed_max

/-- From the first step on, the velocity fields of the stress trajectory are
consistent with its speed and heading. -/
theorem traj_v_fields (k : ℕ) (hk : 1 ≤ k) :
    (traj k).v_x = (traj k).speed * Real.cos ((traj k).heading_angle + beta (Real.pi / 4))
    ∧ (traj k).v_y = (traj k).speed * Real.sin ((traj k).heading_angle + beta (Real.pi / 4)) := by
  obtain ⟨j, rfl⟩ : ∃ j, k = j + 1 := ⟨k - 1, by omega⟩
  exact ⟨rfl, rfl⟩

/-- Claim C8 counterexample: on the reference full-throttle quarter-turn
trajectory, the speed is exactly `MAX_SPEED` at step 10000, yet `accel_norm`
does not decrease on subsequent steps: it takes the same nonzero value at
steps 10001 and 10002. -/
theorem quarter_turn_accel_not_decreasing :
    (traj 10000).speed = MAX_SPEED
    ∧ (traj 10002).accel_norm = (traj 10001).accel_norm
    ∧ (traj 10001).accel_norm ≠ 0 := by
  have h10000 : (traj 10000).speed = MAX_SPEED := by
    unfold traj
    rw [runConst_speed_formula initState (Real.pi / 4) rfl 10000]
    exact min_eq_right (by unfold MAX_SPEED MAX_ACCEL INTEGRATION_STEP; norm_num)
  have h10001 : (traj 10001).speed = MAX_SPEED :=
    traj_speed_hold 10000 h10000 10001 (by norm_num)
  have e1 : (traj 10001).accel_norm = satAccelNorm := by
    have hv := traj_v_fields 10000 (by norm_num)
    have h : traj 10001 = update_car (traj 10000) 1 (Real.pi / 4) := rfl
    rw [h]
    exact accel_norm_const_step (traj 10000) hv.1 hv.2 h10000
  have e2 : (traj 10002).accel_norm = satAccelNorm := by
    have hv := traj_v_fields 10001 (by norm_num)
    have h : traj 10002 = update_car (traj 10001) 1 (Real.pi / 4) := rfl
    rw [h]
    exact accel_norm_const_step (traj 10001) hv.1 hv.2 h10001
  refine ⟨h10000, by rw [e1, e2], ?_⟩
  rw [e1]
  exact ne_of_gt satAccelNorm_pos

/-- Claim C8 (amended): in the full-throttle quarter-turn scenario, once a
state with speed = `MAX_SPEED` is reached, speed holds at `MAX_SPEED` on every
subsequent step, and `accel_norm` is constant — equal to the fixed positive
value `satAccelNorm` — on every later step, rather than decreasing toward 0. -/
theorem quarter_turn_saturation (n : ℕ) (hn : (traj n).speed = MAX_SPEED) :
    (∀ m, n ≤ m → (traj m).speed = MAX_SPEED)
    ∧ (∀ m, n + 1 ≤ m → (traj m).accel_norm = satAccelNorm)
    ∧ 0 < satAccelNorm := by
  have hn1 : 1 ≤ n := by
    by_contra hcon
    have h0 : n = 0 := by omega
    rw [h0] at hn
    have h1 : (0:ℝ) = MAX_SPEED := hn
    unfold MAX_SPEED at h1
    norm_num at h1
  refine ⟨fun m hm => traj_speed_hold n hn m hm, fun m hm => ?_, satAccelNorm_pos⟩
  obtain ⟨k, rfl⟩ : ∃ k, m = k + 1 := ⟨m - 1, by omega⟩
  have hk1 : 1 ≤ k := by omega
  have hks : (traj k).speed = MAX_SPEED := traj_speed_hold n hn k (by omega)
  have hv := traj_v_fields k hk1
  have h : traj (k + 1) = update_car (traj k) 1 (Real.pi / 4) := rfl
  rw [h]
  exact accel_norm_const_step (traj k) hv.1 hv.2 hks

/-- Witness for the amended C8 at step 10000 of the reference trajectory. -/
theorem quarter_turn_saturation_witness :
    (∀ m, 10000 ≤ m → (traj m).speed = MAX_SPEED)
    ∧ (∀ m, 10000 + 1 ≤ m → (traj m).accel_norm = satAccelNorm)
    ∧ 0 < satAccelNorm :=
  quarter_turn_saturation 10000 (by
    unfold traj
    rw [runConst_speed_formula initState (Real.pi / 4) rfl 10000]
    exact min_eq_right (by unfold MAX_SPEED MAX_ACCEL INTEGRATION_STEP; norm_num))

end CarSim
